import Mathlib

/-!
Verification development for the rust-xsettings crate (`src/lib.rs`,
`src/read-scale.rs`): an XSETTINGS protocol client binding.

The Rust source is a thin safe wrapper over the native
`libXsettings-client` library.  Types and the wrapper logic
(`SettingData::from_raw`, `Client::get_setting`, the callback
trampolines) are embedded directly from `src/lib.rs`.  The native
library's behaviour (setting lookup, setting equality, the blob differ,
the client event state machine) is not part of the repository's Rust
sources, so those definitions are modelled from the specification, and
each such definition carries a doc comment saying so.

Machine integers: byte strings are `List UInt8`; C `int`/`long`/`ushort`
values are `Int`/`Nat` (no claim here depends on overflow behaviour).
-/

namespace XSettings

/-- `XSettingsAction` enum from `src/lib.rs` (New = 0, Changed = 1, Deleted = 2). -/
inductive XSettingsAction
  | New
  | Changed
  | Deleted
  deriving DecidableEq, Repr

/-- `XSettingsType` enum from `src/lib.rs` (Int = 0, String = 1, Color = 2, None = 0xff). -/
inductive XSettingsType
  | Int
  | String
  | Color
  | None
  deriving DecidableEq, Repr

/-- `XSettingsResult` enum from `src/lib.rs` (also re-exported as `Error`). -/
inductive XSettingsResult
  | Success
  | NoMem
  | Access
  | Failed
  | NoEntry
  | DuplicateEntry
  deriving DecidableEq, Repr

/-- `XSettingsColor` struct from `src/lib.rs`: four `c_ushort` channels. -/
structure XSettingsColor where
  red : Nat
  green : Nat
  blue : Nat
  alpha : Nat
  deriving DecidableEq, Repr

/-- The raw `XSettingsSetting` C struct from `src/lib.rs`.  In the Rust
source `name` is a `*const c_char` (a NUL-terminated C string, embedded
here as its bytes, which therefore contain no NUL) and `data` is a
`u64` reinterpreted according to `setting_type`.  We embed the union by
carrying each possible payload: `intData` is read when the type is
`Int`, `stringData` when it is `String`, `colorData` when it is
`Color`.  `stringData` holds the bytes stored at the string pointer:
the wire string's bytes followed by the terminating NUL that the native
codec appends (we store the wire bytes; the terminator is made explicit
where the pointer is read). -/
structure XSettingsSetting where
  name : List UInt8
  setting_type : XSettingsType
  intData : Int
  stringData : List UInt8
  colorData : XSettingsColor
  last_change_serial : Nat
  deriving DecidableEq, Repr

instance : Inhabited XSettingsSetting :=
  ⟨⟨[], XSettingsType.None, 0, [], ⟨0, 0, 0, 0⟩, 0⟩⟩

/-- `SettingData` enum from `src/lib.rs`: the typed view of a setting's value. -/
inductive SettingData
  | Int (v : Int)
  | String (bytes : List UInt8)
  | Color (c : XSettingsColor)
  | None
  deriving DecidableEq, Repr

/-- `CStr::from_ptr(p).to_bytes()`: reading a C string takes the bytes
stored at the pointer up to, and not including, the first NUL byte. -/
def cStrToBytes (buf : List UInt8) : List UInt8 :=
  buf.takeWhile (fun b => b ≠ 0)

/-- `SettingData::from_raw` from `src/lib.rs`: dispatch on the type tag;
for `String` the `u64` data is transmuted to `*const c_char` and read
with `CStr::from_ptr(..).to_bytes()`, i.e. up to the first NUL of the
stored buffer (the wire bytes followed by the codec's terminating NUL). -/
def SettingData.from_raw (s : XSettingsSetting) : SettingData :=
  match s.setting_type with
  | XSettingsType.Int => SettingData.Int s.intData
  | XSettingsType.String => SettingData.String (cStrToBytes (s.stringData ++ [0]))
  | XSettingsType.Color => SettingData.Color s.colorData
  | XSettingsType.None => SettingData.None

/-- `Setting` from `src/lib.rs`: an owned setting, wrapping a
`*mut XSettingsSetting` (embedded as the pointed-to struct). -/
structure Setting where
  setting : XSettingsSetting
  deriving DecidableEq, Repr

/-- `Setting::data` from `src/lib.rs`. -/
def Setting.data (s : Setting) : SettingData :=
  SettingData.from_raw s.setting

/-- `SettingRef` from `src/lib.rs`: a borrowed setting, wrapping the
same raw pointer with a lifetime phantom. -/
structure SettingRef where
  setting : XSettingsSetting
  deriving DecidableEq, Repr

/-- `SettingRef::data` from `src/lib.rs`. -/
def SettingRef.data (s : SettingRef) : SettingData :=
  SettingData.from_raw s.setting

/-- Modelled from the spec: the native `xsettings_setting_equal`
(missing from `src/`; `impl PartialEq for Setting` delegates to it).
"Two owned Settings are equal iff name, type, and value compare equal
(serial is excluded from equality)." -/
def xsettings_setting_equal (a b : XSettingsSetting) : Bool :=
  decide (a.name = b.name) &&
  decide (a.setting_type = b.setting_type) &&
  decide (SettingData.from_raw a = SettingData.from_raw b)

/-- `impl PartialEq for Setting` from `src/lib.rs`: delegates to
`xsettings_setting_equal` on the wrapped raw settings. -/
def Setting.eq (a b : Setting) : Bool :=
  xsettings_setting_equal a.setting b.setting

/-- `CString::new` from the Rust standard library, as used by
`Client::get_setting`: fails (a `NulError`, turned into a panic by
`.expect`) exactly when the byte string contains an interior NUL. -/
def CString.new (bytes : List UInt8) : Option (List UInt8) :=
  if bytes.contains 0 then none else some bytes

/-- Modelled from the spec: lookup of a name in the current snapshot, a
"case-sensitive exact name match" (byte-wise, since names are byte
strings).  The snapshot is the ordered list of settings from the last
successfully decoded blob. -/
def lookupByName (snap : List XSettingsSetting) (n : List UInt8) : Option XSettingsSetting :=
  snap.find? (fun s => decide (s.name = n))

/-- Modelled from the spec: the native `xsettings_client_get_setting`
(missing from `src/`): C-style result code plus out-parameter.  On
success the out-parameter holds the found setting; an absent name
yields the `NoEntry` (NotFound) code and leaves the out-parameter
unset. -/
def xsettings_client_get_setting (snap : List XSettingsSetting) (n : List UInt8) :
    XSettingsResult × Option XSettingsSetting :=
  match lookupByName snap n with
  | some s => (XSettingsResult.Success, some s)
  | none => (XSettingsResult.NoEntry, none)

/-- Outcome of calling the safe wrapper `Client::get_setting`: either a
panic (from `CString::new(..).expect`), or the `Result<Setting, Error>`
it returns. -/
inductive GetSettingOutcome
  | panic
  | ok (s : Setting)
  | err (r : XSettingsResult)
  deriving DecidableEq, Repr

/-- `Client::get_setting` from `src/lib.rs`: converts the queried name
to a `CString` (panicking via `.expect` on interior NUL), calls the
native lookup, and returns `Ok(Setting::from_raw(out))` when the result
code is `Success` and `Err(result)` otherwise. -/
def Client.get_setting (snap : List XSettingsSetting) (name : List UInt8) : GetSettingOutcome :=
  match CString.new name with
  | none => GetSettingOutcome.panic
  | some cname =>
    let res := xsettings_client_get_setting snap cname
    if res.1 = XSettingsResult.Success then
      GetSettingOutcome.ok ⟨res.2.getD default⟩
    else
      GetSettingOutcome.err res.1

/-! ## Settings store and differ (modelled from the spec) -/

/-- Names of a snapshot's entries, in snapshot order. -/
def namesOf (l : List XSettingsSetting) : List (List UInt8) :=
  l.map XSettingsSetting.name

/-- Modelled from the spec: the action the differ emits for one entry
of the newly decoded blob (missing from `src/`): "for each entry not
present in the old snapshot, emit New; for each entry present in both
but with a different type or value, emit Changed"; entries present in
both with identical type and value are silent. -/
def newChangedEntry (old : List XSettingsSetting) (e : XSettingsSetting) :
    Option (List UInt8 × XSettingsAction) :=
  match lookupByName old e.name with
  | none => some (e.name, XSettingsAction.New)
  | some o =>
    if xsettings_setting_equal o e then none
    else some (e.name, XSettingsAction.Changed)

/-- Modelled from the spec: the New/Changed half of the differ, "in the
order the entries appear in the newly decoded blob". -/
def newChangedPart (old new : List XSettingsSetting) :
    List (List UInt8 × XSettingsAction) :=
  new.filterMap (newChangedEntry old)

/-- Modelled from the spec: the action the differ emits for one entry
of the old snapshot (missing from `src/`): "for each name present in
the old snapshot but absent from new_entries, emit Deleted". -/
def deletedEntry (new : List XSettingsSetting) (o : XSettingsSetting) :
    Option (List UInt8 × XSettingsAction) :=
  match lookupByName new o.name with
  | some _ => none
  | none => some (o.name, XSettingsAction.Deleted)

/-- Modelled from the spec: the Deleted half of the differ, "in the
order they appeared in the old snapshot". -/
def deletedPart (old new : List XSettingsSetting) :
    List (List UInt8 × XSettingsAction) :=
  old.filterMap (deletedEntry new)

/-- Modelled from the spec: the differ `apply(new_entries)` (missing
from `src/`): New/Changed actions in new-blob order followed by Deleted
actions in old-snapshot order. -/
def Store.apply (old new : List XSettingsSetting) :
    List (List UInt8 × XSettingsAction) :=
  newChangedPart old new ++ deletedPart old new

/-! ## Client session state machine (modelled from the spec) -/

/-- Modelled from the spec: the opaque event records delivered by the
external event source (`XEvent` in `src/lib.rs` is a foreign type).
The core recognises only PropertyNotify-class events (addressed to some
window) and SelectionClear/OwnerChange-class events for the settings
selection; everything else is an `other` event. -/
inductive XEvent
  | propertyNotify (window : Nat)
  | selectionEvent
  | other (tag : Nat)
  deriving DecidableEq, Repr

/-- Modelled from the spec: the client session's observable state,
`{ owner_window : optional handle, snapshot }` (the native
`XSettingsClient` struct is opaque in `src/lib.rs`).  `owner = none`
is the Unbound state, `owner = some w` the Bound state. -/
structure ClientState where
  owner : Option Nat
  snapshot : List XSettingsSetting
  deriving DecidableEq, Repr

/-- The calls the session makes outward, in order: the caller-supplied
notify and watch callbacks (dispatched through the `notify_func` /
`watch_func` trampolines of `src/lib.rs`), and — never emitted by the
client itself — direct event-interest (de)registration with the
windowing system. -/
inductive OutCall
  | notify (name : List UInt8) (action : XSettingsAction) (setting : XSettingsSetting)
  | watch (window : Nat) (is_start : Bool) (mask : Int)
  | registerInterest (window : Nat) (mask : Int)
  deriving DecidableEq, Repr

/-- Whether an outward call is a watch-callback invocation. -/
def OutCall.isWatch : OutCall → Bool
  | OutCall.watch _ _ _ => true
  | _ => false

/-- Whether an outward call is a direct event-interest registration. -/
def OutCall.isRegister : OutCall → Bool
  | OutCall.registerInterest _ _ => true
  | _ => false

/-- Notify calls for a computed diff: the setting passed to the
callback is the new entry for New/Changed and the old entry for
Deleted. -/
def diffNotifications (old new : List XSettingsSetting) : List OutCall :=
  (Store.apply old new).map (fun p =>
    match p.2 with
    | XSettingsAction.Deleted => OutCall.notify p.1 p.2 ((lookupByName old p.1).getD default)
    | _ => OutCall.notify p.1 p.2 ((lookupByName new p.1).getD default))

/-- Result of one `process_event` call: the post-state, the Bool the
function returns (event relevant/consumed), the result code propagated
to the caller, and the outward calls made during the call, in order. -/
structure EventResult where
  state : ClientState
  handled : Bool
  code : XSettingsResult
  calls : List OutCall
  deriving DecidableEq, Repr

/-- Modelled from the spec: leaving the current owner window
(Bound → Unbound half of an ownership transition): "fires Deleted for
every entry currently in the snapshot (in prior order), clears the
snapshot, invokes the watch callback indicating the stop of observation
on the old window". -/
def ownerLoss (st : ClientState) (mask : Int) : List OutCall :=
  st.snapshot.map (fun s => OutCall.notify s.name XSettingsAction.Deleted s) ++
  (match st.owner with
   | some w => [OutCall.watch w false mask]
   | none => [])

/-- Modelled from the spec: binding to a newly resolved owner window
(Unbound → Bound): "invokes watch callback indicating start of
observation on the new window, then proceeds as the initial bind"
(fires New for each decoded entry); "failure to resolve an owner, or a
decode failure, keeps the session in Unbound". -/
def rebind (newOwner : Option Nat)
    (decoded : Except XSettingsResult (List XSettingsSetting)) (mask : Int) :
    ClientState × List OutCall :=
  match newOwner with
  | none => (⟨none, []⟩, [])
  | some w =>
    match decoded with
    | Except.ok entries =>
      (⟨some w, entries⟩,
       OutCall.watch w true mask :: entries.map (fun e => OutCall.notify e.name XSettingsAction.New e))
    | Except.error _ => (⟨none, []⟩, [OutCall.watch w true mask])

/-- Modelled from the spec: the native `xsettings_client_process_event`
(missing from `src/`; `Client::process_event` delegates to it).  The
external property read plus codec is passed in as `decoded`, and the
external owner-window resolution as `newOwner`.  A PropertyNotify on
the tracked window re-decodes: on success the snapshot is replaced and
the diff dispatched, on codec failure nothing observable changes and
the error code is propagated.  A settings-selection ownership event
leaves the old owner and rebinds.  All other events are ignored:
`false` is returned and nothing changes. -/
def Client.process_event (st : ClientState) (ev : XEvent)
    (decoded : Except XSettingsResult (List XSettingsSetting))
    (newOwner : Option Nat) (mask : Int) : EventResult :=
  match ev with
  | XEvent.other _ => ⟨st, false, XSettingsResult.Success, []⟩
  | XEvent.propertyNotify w =>
    if st.owner = some w then
      match decoded with
      | Except.ok entries =>
        ⟨⟨st.owner, entries⟩, true, XSettingsResult.Success,
         diffNotifications st.snapshot entries⟩
      | Except.error e => ⟨st, true, e, []⟩
    else
      ⟨st, false, XSettingsResult.Success, []⟩
  | XEvent.selectionEvent =>
    let r := rebind newOwner decoded mask
    ⟨r.1, true,
     (match newOwner, decoded with
      | some _, Except.error e => e
      | _, _ => XSettingsResult.Success),
     ownerLoss st mask ++ r.2⟩

/-- Relevance of an event to settings tracking, as the spec delimits
it: a PropertyNotify on the tracked window, or an ownership-change
event for the settings selection. -/
def relevantEvent (st : ClientState) (ev : XEvent) : Bool :=
  match ev with
  | XEvent.propertyNotify w => decide (st.owner = some w)
  | XEvent.selectionEvent => true
  | XEvent.other _ => false

/-! ## Concrete sample settings used by witnesses -/

/-- A sample integer setting named "A" (byte 65). -/
def demoA : XSettingsSetting :=
  ⟨[65], XSettingsType.Int, 42, [], ⟨0, 0, 0, 0⟩, 1⟩

/-- A sample color setting named "B" (byte 66). -/
def demoB : XSettingsSetting :=
  ⟨[66], XSettingsType.Color, 0, [], ⟨1, 2, 3, 4⟩, 2⟩

/-! ## Helper lemmas -/

theorem lookupByName_eq_none {snap : List XSettingsSetting} {n : List UInt8} :
    lookupByName snap n = none ↔ n ∉ namesOf snap := by
  simp only [lookupByName, List.find?_eq_none, namesOf, List.mem_map, decide_eq_true_eq]
  constructor
  · rintro h ⟨s, hs, rfl⟩
    exact h s hs rfl
  · intro h s hs hn
    exact h ⟨s, hs, hn⟩

theorem lookupByName_mem {snap : List XSettingsSetting} {n : List UInt8}
    {s : XSettingsSetting} (h : lookupByName snap n = some s) : s ∈ snap ∧ s.name = n := by
  unfold lookupByName at h
  have hp := List.find?_some h
  simp only [decide_eq_true_eq] at hp
  exact ⟨List.mem_of_find?_eq_some h, hp⟩

theorem lookupByName_of_mem {snap : List XSettingsSetting} {n : List UInt8}
    {s : XSettingsSetting} (hnd : (namesOf snap).Nodup) (hs : s ∈ snap) (hn : s.name = n) :
    lookupByName snap n = some s := by
  induction snap with
  | nil => cases hs
  | cons a t ih =>
    rcases List.mem_cons.1 hs with rfl | hst
    · simp [lookupByName, List.find?_cons, hn]
    · have hat : a.name ≠ n := by
        intro hcontra
        have : s.name ∈ namesOf t := List.mem_map.2 ⟨s, hst, rfl⟩
        rw [hn] at this
        rw [← hcontra] at this
        exact (List.nodup_cons.1 hnd).1 this
      have ht : lookupByName t n = some s :=
        ih (List.nodup_cons.1 hnd).2 hst
      simp [lookupByName, List.find?_cons, hat] at ht ⊢
      exact ht

theorem xsettings_setting_equal_refl (a : XSettingsSetting) :
    xsettings_setting_equal a a = true := by
  simp [xsettings_setting_equal]

/-! ## C1: get_setting lookup -/

/-- C1 (counterexample): the claim promises a lookup outcome (matching
Setting or NotFound) for *every* byte-string name, but at the name
consisting of the single NUL byte, `Client::get_setting` panics in the
`CString::new(..).expect` conversion before any lookup happens; with an
empty snapshot the claim would demand the NotFound (`NoEntry`) error
instead. -/
theorem get_setting_nul_not_lookup :
    Client.get_setting [] [0] = GetSettingOutcome.panic ∧
    GetSettingOutcome.panic ≠ GetSettingOutcome.err XSettingsResult.NoEntry := by
  decide

/-- C1 (amended): for every byte-string name free of interior NUL
bytes, `get_setting` performs a synchronous, case-sensitive, exact
byte-wise match of the name against the current snapshot, returning
the matching Setting when present and the NotFound (`NoEntry`) error
when absent; such names are still not required to be valid text. -/
theorem get_setting_exact_match (snap : List XSettingsSetting) (name : List UInt8)
    (h : name.contains 0 = false) :
    Client.get_setting snap name =
      match lookupByName snap name with
      | some s => GetSettingOutcome.ok ⟨s⟩
      | none => GetSettingOutcome.err XSettingsResult.NoEntry := by
  unfold Client.get_setting CString.new
  rw [h]
  simp only [Bool.false_eq_true, if_false]
  cases hl : lookupByName snap name with
  | some s => simp [xsettings_client_get_setting, hl]
  | none => simp [xsettings_client_get_setting, hl]

/-- C1 witness: a NUL-free name found in a one-entry snapshot, and a
NUL-free name absent from it, both behave as the amended claim says. -/
theorem get_setting_exact_match_witness :
    ([65] : List UInt8).contains 0 = false ∧
    ([67] : List UInt8).contains 0 = false ∧
    Client.get_setting [demoA] [65] = GetSettingOutcome.ok ⟨demoA⟩ ∧
    Client.get_setting [demoA] [67] = GetSettingOutcome.err XSettingsResult.NoEntry :=
  ⟨by decide, by decide,
   (get_setting_exact_match [demoA] [65] (by decide)).trans (by decide),
   (get_setting_exact_match [demoA] [67] (by decide)).trans (by decide)⟩

/-! ## C2: error propagation of get_setting -/

/-- C2: for any (NUL-free, cf. C10) queried name, `get_setting` returns
`Ok(setting)` exactly when the underlying lookup reports `Success`
(the setting being the lookup's out-parameter), otherwise it returns
the lookup's typed error code to the immediate caller, and it never
panics/aborts. -/
theorem get_setting_propagates_lookup (snap : List XSettingsSetting) (name : List UInt8)
    (h : name.contains 0 = false) :
    ((xsettings_client_get_setting snap name).1 = XSettingsResult.Success →
      Client.get_setting snap name =
        GetSettingOutcome.ok ⟨(xsettings_client_get_setting snap name).2.getD default⟩) ∧
    ((xsettings_client_get_setting snap name).1 ≠ XSettingsResult.Success →
      Client.get_setting snap name =
        GetSettingOutcome.err (xsettings_client_get_setting snap name).1) ∧
    Client.get_setting snap name ≠ GetSettingOutcome.panic := by
  unfold Client.get_setting CString.new
  rw [h]
  simp only [Bool.false_eq_true, if_false]
  by_cases hs : (xsettings_client_get_setting snap name).1 = XSettingsResult.Success <;>
    simp [hs]

/-- C2 witness: on a one-entry snapshot, a successful lookup surfaces
as `Ok` and a failed one as `Err NoEntry`, with no panic. -/
theorem get_setting_propagates_lookup_witness :
    ([65] : List UInt8).contains 0 = false ∧
    (xsettings_client_get_setting [demoA] [65]).1 = XSettingsResult.Success ∧
    Client.get_setting [demoA] [65] = GetSettingOutcome.ok ⟨demoA⟩ :=
  ⟨by decide, by decide,
   ((get_setting_propagates_lookup [demoA] [65] (by decide)).1 (by decide)).trans (by decide)⟩

/-! ## C3: the observed value of a String setting -/

/-- C3 (counterexample): a String setting whose wire payload is the
byte sequence [65, 0, 66] (which the spec says callers must receive in
full, "it may contain any byte value") is observed through `data()` as
only [65]: `CStr::from_ptr` stops at the first NUL byte. -/
theorem data_not_full_wire_string :
    Setting.data ⟨⟨[78], XSettingsType.String, 0, [65, 0, 66], ⟨0, 0, 0, 0⟩, 7⟩⟩ =
      SettingData.String [65] ∧
    SettingData.String [65] ≠ SettingData.String [65, 0, 66] := by
  decide

theorem takeWhile_append_stop {p : UInt8 → Bool} (hp : p 0 = false) (l : List UInt8) :
    (l ++ [0]).takeWhile p = l.takeWhile p := by
  induction l with
  | nil => simp [List.takeWhile_cons, hp]
  | cons a t ih =>
    simp only [List.cons_append, List.takeWhile_cons]
    rw [ih]

theorem takeWhile_eq_self_of_forall {p : UInt8 → Bool} {l : List UInt8}
    (h : ∀ b ∈ l, p b = true) : l.takeWhile p = l := by
  induction l with
  | nil => rfl
  | cons a t ih =>
    rw [List.takeWhile_cons, if_pos (h a (List.mem_cons_self a t))]
    rw [ih (fun b hb => h b (List.mem_cons_of_mem a hb))]

/-- C3 (amended): the value of a String-typed Setting, as observed
through `data()`, is the longest NUL-free prefix of the length-prefixed
byte sequence carried in the wire blob; in particular it is the full
sequence exactly when that sequence contains no NUL byte, and it is
still not guaranteed to be valid text. -/
theorem data_string_truncates_at_first_nul (n : List UInt8) (wire : List UInt8)
    (i : Int) (c : XSettingsColor) (sl : Nat) :
    Setting.data ⟨⟨n, XSettingsType.String, i, wire, c, sl⟩⟩ =
      SettingData.String (wire.takeWhile (fun b => b ≠ 0)) ∧
    ((0 : UInt8) ∉ wire →
      Setting.data ⟨⟨n, XSettingsType.String, i, wire, c, sl⟩⟩ = SettingData.String wire) := by
  have hstop : ∀ l : List UInt8, cStrToBytes (l ++ [0]) = l.takeWhile (fun b => b ≠ 0) :=
    fun l => takeWhile_append_stop (by decide) l
  constructor
  · show SettingData.String (cStrToBytes (wire ++ [0])) =
      SettingData.String (wire.takeWhile (fun b => b ≠ 0))
    exact congrArg SettingData.String (hstop wire)
  · intro hw
    show SettingData.String (cStrToBytes (wire ++ [0])) = SettingData.String wire
    refine congrArg SettingData.String ((hstop wire).trans ?_)
    exact takeWhile_eq_self_of_forall
      (fun b hb => decide_eq_true (fun hc => hw (hc ▸ hb)))

/-- C3 witness: a NUL-free wire string is observed in full. -/
theorem data_string_witness :
    (0 : UInt8) ∉ ([72, 73] : List UInt8) ∧
    Setting.data ⟨⟨[78], XSettingsType.String, 0, [72, 73], ⟨0, 0, 0, 0⟩, 7⟩⟩ =
      SettingData.String [72, 73] :=
  ⟨by decide,
   (data_string_truncates_at_first_nul [78] [72, 73] 0 ⟨0, 0, 0, 0⟩ 7).2 (by decide)⟩

/-! ## C4: setting equality ignores the serial -/

/-- C4: equality of owned Settings holds iff name, type, and observed
value agree — the `last_change_serial` is ignored, so identical
settings differing only in serial compare equal; and a borrowed
`SettingRef` and an owned `Setting` over the same underlying raw
setting present the same data and are equal under the underlying
setting equality. -/
theorem setting_equality_ignores_serial (a b : XSettingsSetting) :
    (Setting.eq ⟨a⟩ ⟨b⟩ = true ↔
      a.name = b.name ∧ a.setting_type = b.setting_type ∧
        SettingData.from_raw a = SettingData.from_raw b) ∧
    (∀ n t i sd c sl1 sl2,
      Setting.eq ⟨⟨n, t, i, sd, c, sl1⟩⟩ ⟨⟨n, t, i, sd, c, sl2⟩⟩ = true) ∧
    (∀ r : SettingRef, ∀ s : Setting, r.setting = s.setting →
      xsettings_setting_equal r.setting s.setting = true ∧
        SettingRef.data r = Setting.data s) := by
  refine ⟨?_, ?_, ?_⟩
  · simp [Setting.eq, xsettings_setting_equal, and_assoc]
  · intro n t i sd c sl1 sl2
    cases t <;> simp [Setting.eq, xsettings_setting_equal, SettingData.from_raw]
  · intro r s h
    rw [h]
    exact ⟨xsettings_setting_equal_refl s.setting, by simp [SettingRef.data, Setting.data, h]⟩

/-- C4 witness: two concrete settings differing only in serial are
equal, and a borrowed view of `demoA` presents the same data as an
owned `demoA`. -/
theorem setting_equality_witness :
    Setting.eq ⟨⟨[84], XSettingsType.Int, 9, [], ⟨0, 0, 0, 0⟩, 3⟩⟩
      ⟨⟨[84], XSettingsType.Int, 9, [], ⟨0, 0, 0, 0⟩, 4⟩⟩ = true ∧
    SettingRef.data ⟨demoA⟩ = Setting.data ⟨demoA⟩ :=
  ⟨(setting_equality_ignores_serial default default).2.1
      [84] XSettingsType.Int 9 [] ⟨0, 0, 0, 0⟩ 3 4,
   ((setting_equality_ignores_serial default default).2.2 ⟨demoA⟩ ⟨demoA⟩ rfl).2⟩

/-! ## C10: interior NUL names panic -/

/-- C10: for any queried name containing a NUL byte, `get_setting`
panics in the `CString::new(..).expect` conversion rather than
returning `Ok` or any typed error: the lookup contract carries the
unstated precondition that the name be NUL-free. -/
theorem get_setting_nul_name_panics (snap : List XSettingsSetting) (name : List UInt8)
    (h : name.contains 0 = true) :
    Client.get_setting snap name = GetSettingOutcome.panic := by
  unfold Client.get_setting CString.new
  rw [h]
  simp

/-- C10 witness: a concrete name with an interior NUL panics. -/
theorem get_setting_nul_name_panics_witness :
    ([65, 0, 66] : List UInt8).contains 0 = true ∧
    Client.get_setting [demoA] [65, 0, 66] = GetSettingOutcome.panic :=
  ⟨by decide, get_setting_nul_name_panics [demoA] [65, 0, 66] (by decide)⟩

/-! ## C5: process_event relevance and frame condition -/

/-- C5: `process_event` may be fed every event without pre-filtering;
it returns `true` exactly for events relevant to settings tracking (a
PropertyNotify on the tracked window, or an ownership-change event for
the settings selection), and whenever it returns `false` the observable
session state is unchanged, the result code is `Success`, and no
callback is invoked. -/
theorem process_event_relevance (st : ClientState) (ev : XEvent)
    (decoded : Except XSettingsResult (List XSettingsSetting))
    (newOwner : Option Nat) (mask : Int) :
    ((Client.process_event st ev decoded newOwner mask).handled = relevantEvent st ev) ∧
    (relevantEvent st ev = false →
      Client.process_event st ev decoded newOwner mask =
        ⟨st, false, XSettingsResult.Success, []⟩) := by
  cases ev with
  | other tag => exact ⟨rfl, fun _ => rfl⟩
  | selectionEvent =>
    refine ⟨rfl, fun hfalse => ?_⟩
    simp [relevantEvent] at hfalse
  | propertyNotify w =>
    by_cases h : st.owner = some w
    · constructor
      · cases decoded <;> simp [Client.process_event, relevantEvent, h]
      · intro hfalse
        simp [relevantEvent, h] at hfalse
    · constructor
      · simp [Client.process_event, relevantEvent, h]
      · intro _
        simp [Client.process_event, h]

/-- C5 witness: an unrelated event on a Bound session is ignored as a
no-op, and a PropertyNotify for an untracked window likewise. -/
theorem process_event_relevance_witness :
    relevantEvent ⟨some 7, [demoA]⟩ (XEvent.other 3) = false ∧
    Client.process_event ⟨some 7, [demoA]⟩ (XEvent.other 3)
        (Except.error XSettingsResult.Failed) none 0 =
      ⟨⟨some 7, [demoA]⟩, false, XSettingsResult.Success, []⟩ ∧
    Client.process_event ⟨some 7, [demoA]⟩ (XEvent.propertyNotify 8)
        (Except.ok [demoB]) none 0 =
      ⟨⟨some 7, [demoA]⟩, false, XSettingsResult.Success, []⟩ :=
  ⟨by decide,
   (process_event_relevance ⟨some 7, [demoA]⟩ (XEvent.other 3)
      (Except.error XSettingsResult.Failed) none 0).2 (by decide),
   (process_event_relevance ⟨some 7, [demoA]⟩ (XEvent.propertyNotify 8)
      (Except.ok [demoB]) none 0).2 (by decide)⟩

/-! ## C6: decode failure on a property change is a no-op -/

/-- C6: when a Bound session (owner `some w`) processes a
property-change event on its tracked window and the re-decode fails,
nothing observable changes: the state (owner and snapshot alike) is
returned untouched, no callback is invoked, the event counts as
handled, and the `Failed` code is propagated to the caller. -/
theorem process_event_decode_failure_frame (st : ClientState) (w : Nat)
    (newOwner : Option Nat) (mask : Int) (h : st.owner = some w) :
    Client.process_event st (XEvent.propertyNotify w)
        (Except.error XSettingsResult.Failed) newOwner mask =
      ⟨st, true, XSettingsResult.Failed, []⟩ := by
  simp [Client.process_event, h]

/-- C6 witness: a concrete Bound session survives a failing re-decode
byte-for-byte unchanged. -/
theorem process_event_decode_failure_witness :
    (⟨some 7, [demoA, demoB]⟩ : ClientState).owner = some 7 ∧
    Client.process_event ⟨some 7, [demoA, demoB]⟩ (XEvent.propertyNotify 7)
        (Except.error XSettingsResult.Failed) none 0 =
      ⟨⟨some 7, [demoA, demoB]⟩, true, XSettingsResult.Failed, []⟩ :=
  ⟨rfl, process_event_decode_failure_frame ⟨some 7, [demoA, demoB]⟩ 7 none 0 rfl⟩

/-! ## C9: watch callback on owner transitions -/

theorem filter_isWatch_map_notify (l : List XSettingsSetting)
    (f : XSettingsSetting → List UInt8) (a : XSettingsAction) :
    (l.map (fun s => OutCall.notify (f s) a s)).filter OutCall.isWatch = [] := by
  induction l with
  | nil => rfl
  | cons s t ih => simp [OutCall.isWatch, ih]

theorem diffNotifications_all_notify {old new : List XSettingsSetting} {c : OutCall}
    (hc : c ∈ diffNotifications old new) :
    c.isWatch = false ∧ c.isRegister = false := by
  unfold diffNotifications at hc
  rcases List.mem_map.1 hc with ⟨p, _, hpc⟩
  cases hp2 : p.2 <;> rw [hp2] at hpc <;>
    exact hpc ▸ ⟨rfl, rfl⟩

theorem process_event_no_register (st : ClientState) (ev : XEvent)
    (decoded : Except XSettingsResult (List XSettingsSetting))
    (newOwner : Option Nat) (mask : Int) :
    ∀ c ∈ (Client.process_event st ev decoded newOwner mask).calls,
      c.isRegister = false := by
  intro c hc
  cases ev with
  | other tag => cases hc
  | propertyNotify w =>
    by_cases h : st.owner = some w
    · cases decoded with
      | ok entries =>
        simp only [Client.process_event, h, if_pos] at hc
        exact (diffNotifications_all_notify (by simpa using hc)).2
      | error e =>
        simp only [Client.process_event, h, if_pos] at hc
        simp at hc
    · simp only [Client.process_event, h, if_neg] at hc
      simp at hc
  | selectionEvent =>
    simp only [Client.process_event] at hc
    rcases List.mem_append.1 (by simpa using hc) with hloss | hbind
    · unfold ownerLoss at hloss
      rcases List.mem_append.1 hloss with hdel | hwatch
      · rcases List.mem_map.1 hdel with ⟨s, _, hsc⟩
        exact hsc ▸ rfl
      · cases how : st.owner <;> rw [how] at hwatch
        · cases hwatch
        · rcases List.mem_singleton.1 hwatch with rfl
          rfl
    · unfold rebind at hbind
      cases newOwner with
      | none => cases hbind
      | some w =>
        cases decoded with
        | ok entries =>
          simp only [] at hbind
          rcases List.mem_cons.1 hbind with rfl | hmem
          · rfl
          · rcases List.mem_map.1 hmem with ⟨s, _, hsc⟩
            exact hsc ▸ rfl
        | error e =>
          rcases List.mem_singleton.1 hbind with rfl
          rfl

/-- C9: on an owner-window transition (tracked owner `wOld`, newly
resolved owner `wNew`) the watch callback is invoked exactly twice —
first with `is_start = false` for the abandoned window, then with
`is_start = true` for the newly observed one, each carrying the event
mask the caller should (de)register — and no event of any kind ever
makes the client register or deregister event interest itself. -/
theorem owner_transition_watch_calls (st : ClientState) (wOld wNew : Nat) (mask : Int)
    (entries : List XSettingsSetting) (h : st.owner = some wOld) :
    ((Client.process_event st XEvent.selectionEvent (Except.ok entries)
        (some wNew) mask).calls.filter OutCall.isWatch =
      [OutCall.watch wOld false mask, OutCall.watch wNew true mask]) ∧
    (∀ ev decoded newOwner,
      (Client.process_event st ev decoded newOwner mask).calls.filter
        OutCall.isRegister = []) := by
  constructor
  · show ((ownerLoss st mask ++ (rebind (some wNew) (Except.ok entries) mask).2).filter
      OutCall.isWatch) = _
    unfold ownerLoss rebind
    rw [h]
    simp only [List.filter_append]
    rw [filter_isWatch_map_notify st.snapshot XSettingsSetting.name XSettingsAction.Deleted]
    simp only [List.nil_append, List.filter_cons, List.filter_singleton]
    rw [filter_isWatch_map_notify entries XSettingsSetting.name XSettingsAction.New]
    rfl
  · intro ev decoded newOwner
    rw [List.filter_eq_nil_iff]
    intro c hc
    rw [process_event_no_register st ev decoded newOwner mask c hc]
    simp

/-- C9 witness: a concrete transition from owner 5 to owner 9 makes
exactly the two watch calls, in order, and no registration call. -/
theorem owner_transition_watch_calls_witness :
    (⟨some 5, [demoA]⟩ : ClientState).owner = some 5 ∧
    (Client.process_event ⟨some 5, [demoA]⟩ XEvent.selectionEvent
        (Except.ok [demoB]) (some 9) 4194304).calls.filter OutCall.isWatch =
      [OutCall.watch 5 false 4194304, OutCall.watch 9 true 4194304] ∧
    (Client.process_event ⟨some 5, [demoA]⟩ XEvent.selectionEvent
        (Except.ok [demoB]) (some 9) 4194304).calls.filter OutCall.isRegister = [] :=
  ⟨rfl,
   (owner_transition_watch_calls ⟨some 5, [demoA]⟩ 5 9 4194304 [demoB] rfl).1,
   (owner_transition_watch_calls ⟨some 5, [demoA]⟩ 5 9 4194304 [demoB] rfl).2
     XEvent.selectionEvent (Except.ok [demoB]) (some 9)⟩

/-! ## C7: characterization of the differ -/

theorem newChangedEntry_of_absent {old : List XSettingsSetting} {e : XSettingsSetting}
    (hl : lookupByName old e.name = none) :
    newChangedEntry old e = some (e.name, XSettingsAction.New) := by
  unfold newChangedEntry
  rw [hl]

theorem newChangedEntry_of_present {old : List XSettingsSetting}
    {e o : XSettingsSetting} (hl : lookupByName old e.name = some o) :
    newChangedEntry old e =
      if xsettings_setting_equal o e then none
      else some (e.name, XSettingsAction.Changed) := by
  unfold newChangedEntry
  rw [hl]

theorem deletedEntry_of_present {new : List XSettingsSetting} {o s : XSettingsSetting}
    (hl : lookupByName new o.name = some s) : deletedEntry new o = none := by
  unfold deletedEntry
  rw [hl]

theorem deletedEntry_of_absent {new : List XSettingsSetting} {o : XSettingsSetting}
    (hl : lookupByName new o.name = none) :
    deletedEntry new o = some (o.name, XSettingsAction.Deleted) := by
  unfold deletedEntry
  rw [hl]

theorem mem_newChangedPart_shape {old new : List XSettingsSetting}
    {p : List UInt8 × XSettingsAction} (hp : p ∈ newChangedPart old new) :
    p.2 = XSettingsAction.New ∨ p.2 = XSettingsAction.Changed := by
  unfold newChangedPart at hp
  rcases List.mem_filterMap.1 hp with ⟨e, _, hfe⟩
  cases hl : lookupByName old e.name with
  | none =>
    rw [newChangedEntry_of_absent hl] at hfe
    have heq := Option.some.inj hfe
    rw [← heq]
    exact Or.inl rfl
  | some o =>
    rw [newChangedEntry_of_present hl] at hfe
    by_cases hb : xsettings_setting_equal o e = true
    · rw [if_pos hb] at hfe
      cases hfe
    · rw [if_neg hb] at hfe
      have heq := Option.some.inj hfe
      rw [← heq]
      exact Or.inr rfl

theorem mem_deletedPart_shape {old new : List XSettingsSetting}
    {p : List UInt8 × XSettingsAction} (hp : p ∈ deletedPart old new) :
    p.2 = XSettingsAction.Deleted := by
  unfold deletedPart at hp
  rcases List.mem_filterMap.1 hp with ⟨o, _, hfo⟩
  cases hl : lookupByName new o.name with
  | none =>
    rw [deletedEntry_of_absent hl] at hfo
    have heq := Option.some.inj hfo
    rw [← heq]
  | some s =>
    rw [deletedEntry_of_present hl] at hfo
    cases hfo

theorem mem_newChangedPart_new_iff {old new : List XSettingsSetting} {n : List UInt8} :
    (n, XSettingsAction.New) ∈ newChangedPart old new ↔
      n ∈ namesOf new ∧ n ∉ namesOf old := by
  unfold newChangedPart
  rw [List.mem_filterMap]
  constructor
  · rintro ⟨e, he, hfe⟩
    cases hl : lookupByName old e.name with
    | none =>
      rw [newChangedEntry_of_absent hl] at hfe
      have heq := Option.some.inj hfe
      have hen : e.name = n := congrArg Prod.fst heq
      subst hen
      exact ⟨List.mem_map.2 ⟨e, he, rfl⟩, lookupByName_eq_none.1 hl⟩
    | some o =>
      rw [newChangedEntry_of_present hl] at hfe
      by_cases hb : xsettings_setting_equal o e = true
      · rw [if_pos hb] at hfe
        cases hfe
      · rw [if_neg hb] at hfe
        have heq := Option.some.inj hfe
        have : XSettingsAction.Changed = XSettingsAction.New := congrArg Prod.snd heq
        cases this
  · rintro ⟨hn, hno⟩
    rcases List.mem_map.1 hn with ⟨e, he, hen⟩
    subst hen
    exact ⟨e, he, newChangedEntry_of_absent (lookupByName_eq_none.2 hno)⟩

theorem mem_deletedPart_iff {old new : List XSettingsSetting} {n : List UInt8} :
    (n, XSettingsAction.Deleted) ∈ deletedPart old new ↔
      n ∈ namesOf old ∧ n ∉ namesOf new := by
  unfold deletedPart
  rw [List.mem_filterMap]
  constructor
  · rintro ⟨o, ho, hfo⟩
    cases hl : lookupByName new o.name with
    | none =>
      rw [deletedEntry_of_absent hl] at hfo
      have heq := Option.some.inj hfo
      have hon : o.name = n := congrArg Prod.fst heq
      subst hon
      exact ⟨List.mem_map.2 ⟨o, ho, rfl⟩, lookupByName_eq_none.1 hl⟩
    | some s =>
      rw [deletedEntry_of_present hl] at hfo
      cases hfo
  · rintro ⟨hn, hno⟩
    rcases List.mem_map.1 hn with ⟨o, ho, hon⟩
    subst hon
    exact ⟨o, ho, deletedEntry_of_absent (lookupByName_eq_none.2 hno)⟩

theorem mem_newChangedPart_changed_iff {old new : List XSettingsSetting} {n : List UInt8}
    (hold : (namesOf old).Nodup) :
    (n, XSettingsAction.Changed) ∈ newChangedPart old new ↔
      ∃ o, o ∈ old ∧ o.name = n ∧ ∃ e, e ∈ new ∧ e.name = n ∧
        xsettings_setting_equal o e = false := by
  unfold newChangedPart
  rw [List.mem_filterMap]
  constructor
  · rintro ⟨e, he, hfe⟩
    cases hl : lookupByName old e.name with
    | none =>
      rw [newChangedEntry_of_absent hl] at hfe
      have heq := Option.some.inj hfe
      have : XSettingsAction.New = XSettingsAction.Changed := congrArg Prod.snd heq
      cases this
    | some o =>
      rw [newChangedEntry_of_present hl] at hfe
      by_cases hb : xsettings_setting_equal o e = true
      · rw [if_pos hb] at hfe
        cases hfe
      · rw [if_neg hb] at hfe
        have heq := Option.some.inj hfe
        have hen : e.name = n := congrArg Prod.fst heq
        subst hen
        obtain ⟨ho, hon⟩ := lookupByName_mem hl
        exact ⟨o, ho, hon, e, he, rfl, Bool.eq_false_iff.2 hb⟩
  · rintro ⟨o, ho, hon, e, he, hen, hne⟩
    subst hen
    refine ⟨e, he, ?_⟩
    rw [newChangedEntry_of_present (lookupByName_of_mem hold ho hon)]
    rw [if_neg (by simp [hne])]

theorem filterMap_names_sublist
    (g : XSettingsSetting → Option (List UInt8 × XSettingsAction))
    (hg : ∀ e p, g e = some p → p.1 = e.name) (l : List XSettingsSetting) :
    ((l.filterMap g).map Prod.fst).Sublist (namesOf l) := by
  induction l with
  | nil => simp [namesOf]
  | cons e t ih =>
    rw [List.filterMap_cons]
    cases hfe : g e with
    | none =>
      simp only [namesOf, List.map_cons]
      exact List.Sublist.cons e.name ih
    | some p =>
      simp only [namesOf, List.map_cons]
      rw [hg e p hfe]
      exact List.Sublist.cons₂ e.name ih

theorem newChangedPart_names_sublist (old new : List XSettingsSetting) :
    ((newChangedPart old new).map Prod.fst).Sublist (namesOf new) := by
  refine filterMap_names_sublist (newChangedEntry old) ?_ new
  intro e p hp
  cases hl : lookupByName old e.name with
  | none =>
    rw [newChangedEntry_of_absent hl] at hp
    exact (congrArg Prod.fst (Option.some.inj hp)).symm
  | some o =>
    rw [newChangedEntry_of_present hl] at hp
    by_cases hb : xsettings_setting_equal o e = true
    · rw [if_pos hb] at hp
      cases hp
    · rw [if_neg hb] at hp
      exact (congrArg Prod.fst (Option.some.inj hp)).symm

theorem deletedPart_names_sublist (old new : List XSettingsSetting) :
    ((deletedPart old new).map Prod.fst).Sublist (namesOf old) := by
  refine filterMap_names_sublist (deletedEntry new) ?_ old
  intro o p hp
  cases hl : lookupByName new o.name with
  | none =>
    rw [deletedEntry_of_absent hl] at hp
    exact (congrArg Prod.fst (Option.some.inj hp)).symm
  | some s =>
    rw [deletedEntry_of_present hl] at hp
    cases hp

theorem apply_names_nodup (old new : List XSettingsSetting)
    (hold : (namesOf old).Nodup) (hnew : (namesOf new).Nodup) :
    ((Store.apply old new).map Prod.fst).Nodup := by
  unfold Store.apply
  rw [List.map_append]
  refine List.Nodup.append ((newChangedPart_names_sublist old new).nodup hnew)
    ((deletedPart_names_sublist old new).nodup hold) ?_
  intro x hx1 hx2
  have hxnew : x ∈ namesOf new := (newChangedPart_names_sublist old new).subset hx1
  rcases List.mem_map.1 hx2 with ⟨⟨pn, pa⟩, hp, rfl⟩
  have hshape : pa = XSettingsAction.Deleted := mem_deletedPart_shape hp
  subst hshape
  exact (mem_deletedPart_iff.1 hp).2 hxnew

/-- C7: for any old snapshot and newly decoded entry list (each with
unique names, as the protocol guarantees), the differ's output contains
the action `(n, New)` exactly for names present only in the new
entries, `(n, Changed)` exactly for names present in both whose unique
old and new entries differ in type or value, and `(n, Deleted)` exactly
for names present only in the old snapshot; the output mentions each
name at most once (so each of these actions is emitted exactly once,
and unchanged names get none); New/Changed actions come first, in
new-blob order (their names form a sublist of the new names), followed
by Deleted actions in old-snapshot order; and the output is a pure
function of the two inputs. -/
theorem apply_diff_characterization (old new : List XSettingsSetting)
    (hold : (namesOf old).Nodup) (hnew : (namesOf new).Nodup) :
    (∀ n, ((n, XSettingsAction.New) ∈ Store.apply old new ↔
      n ∈ namesOf new ∧ n ∉ namesOf old)) ∧
    (∀ n, ((n, XSettingsAction.Changed) ∈ Store.apply old new ↔
      ∃ o, o ∈ old ∧ o.name = n ∧ ∃ e, e ∈ new ∧ e.name = n ∧
        xsettings_setting_equal o e = false)) ∧
    (∀ n, ((n, XSettingsAction.Deleted) ∈ Store.apply old new ↔
      n ∈ namesOf old ∧ n ∉ namesOf new)) ∧
    ((Store.apply old new).map Prod.fst).Nodup ∧
    Store.apply old new = newChangedPart old new ++ deletedPart old new ∧
    ((newChangedPart old new).map Prod.fst).Sublist (namesOf new) ∧
    ((deletedPart old new).map Prod.fst).Sublist (namesOf old) := by
  refine ⟨?_, ?_, ?_, apply_names_nodup old new hold hnew, rfl,
    newChangedPart_names_sublist old new, deletedPart_names_sublist old new⟩
  · intro n
    unfold Store.apply
    rw [List.mem_append]
    constructor
    · rintro (h1 | h2)
      · exact mem_newChangedPart_new_iff.1 h1
      · have : XSettingsAction.New = XSettingsAction.Deleted := mem_deletedPart_shape h2
        cases this
    · intro hmem
      exact Or.inl (mem_newChangedPart_new_iff.2 hmem)
  · intro n
    unfold Store.apply
    rw [List.mem_append]
    constructor
    · rintro (h1 | h2)
      · exact (mem_newChangedPart_changed_iff hold).1 h1
      · have : XSettingsAction.Changed = XSettingsAction.Deleted := mem_deletedPart_shape h2
        cases this
    · intro hmem
      exact Or.inl ((mem_newChangedPart_changed_iff hold).2 hmem)
  · intro n
    unfold Store.apply
    rw [List.mem_append]
    constructor
    · rintro (h1 | h2)
      · rcases mem_newChangedPart_shape h1 with hsh | hsh <;> cases hsh
      · exact mem_deletedPart_iff.1 h2
    · intro hmem
      exact Or.inr (mem_deletedPart_iff.2 hmem)

/-- C7 witness: old snapshot \x7bA (int 42), B (color)\x7d versus new
entries \x7bB (changed color), C (string)\x7d emits New(C), Changed(B)
and Deleted(A), with all-distinct output names. -/
theorem apply_diff_characterization_witness :
    (namesOf [demoA, demoB]).Nodup ∧
    (namesOf [⟨[66], XSettingsType.Color, 0, [], ⟨9, 9, 9, 9⟩, 3⟩,
      ⟨[67], XSettingsType.String, 0, [120], ⟨0, 0, 0, 0⟩, 3⟩]).Nodup ∧
    (([67], XSettingsAction.New) ∈ Store.apply [demoA, demoB]
      [⟨[66], XSettingsType.Color, 0, [], ⟨9, 9, 9, 9⟩, 3⟩,
       ⟨[67], XSettingsType.String, 0, [120], ⟨0, 0, 0, 0⟩, 3⟩]) ∧
    (([65], XSettingsAction.Deleted) ∈ Store.apply [demoA, demoB]
      [⟨[66], XSettingsType.Color, 0, [], ⟨9, 9, 9, 9⟩, 3⟩,
       ⟨[67], XSettingsType.String, 0, [120], ⟨0, 0, 0, 0⟩, 3⟩]) :=
  ⟨by decide, by decide,
   ((apply_diff_characterization [demoA, demoB]
      [⟨[66], XSettingsType.Color, 0, [], ⟨9, 9, 9, 9⟩, 3⟩,
       ⟨[67], XSettingsType.String, 0, [120], ⟨0, 0, 0, 0⟩, 3⟩]
      (by decide) (by decide)).1 [67]).2 (by decide),
   (((apply_diff_characterization [demoA, demoB]
      [⟨[66], XSettingsType.Color, 0, [], ⟨9, 9, 9, 9⟩, 3⟩,
       ⟨[67], XSettingsType.String, 0, [120], ⟨0, 0, 0, 0⟩, 3⟩]
      (by decide) (by decide)).2.2.1 [65]).2 (by decide))⟩

/-! ## C8: identical blobs are a silent no-op -/

/-- C8: re-applying a blob identical to the previously applied snapshot
(names unique, as the protocol guarantees) yields zero diff actions and
hence zero notify callbacks; in particular the empty blob over the
empty snapshot is a valid no-op, not an error (the differ has no error
outcome at all). -/
theorem apply_identical_no_actions (s : List XSettingsSetting)
    (h : (namesOf s).Nodup) :
    Store.apply s s = [] ∧ diffNotifications s s = [] := by
  have h1 : newChangedPart s s = [] := by
    unfold newChangedPart
    rw [List.filterMap_eq_nil_iff]
    intro e he
    rw [newChangedEntry_of_present (lookupByName_of_mem h he rfl)]
    rw [if_pos (xsettings_setting_equal_refl e)]
  have h2 : deletedPart s s = [] := by
    unfold deletedPart
    rw [List.filterMap_eq_nil_iff]
    intro o ho
    exact deletedEntry_of_present (lookupByName_of_mem h ho rfl)
  have happ : Store.apply s s = [] := by
    rw [Store.apply, h1, h2]
    rfl
  refine ⟨happ, ?_⟩
  unfold diffNotifications
  rw [happ]
  rfl

/-- C8 witness: a concrete two-entry snapshot re-applied to itself
yields no actions, and so does the empty one. -/
theorem apply_identical_no_actions_witness :
    (namesOf [demoA, demoB]).Nodup ∧
    Store.apply [demoA, demoB] [demoA, demoB] = [] ∧
    Store.apply ([] : List XSettingsSetting) [] = [] :=
  ⟨by decide,
   (apply_identical_no_actions [demoA, demoB] (by decide)).1,
   (apply_identical_no_actions [] (by decide)).1⟩

end XSettings
